import Mathlib

/-!
# Funnel computation engine — a shallow embedding

This file embeds, in Lean, the core of the funnel computation engine of the
repository (`api.py`, `engines/funnel_engine.py`, `config/funnel_config.py`):
the predicate builder (`build_filter_condition`, `map_ui_to_sql`), the step
resolver (`resolve_funnel_steps` with its demo-preset registry), the
aggregation-row post-processing that turns `windowFunnel` levels into
per-step/per-segment counts, the metrics calculation (conversion rate,
drop-off rate, revenue at risk), and the validation layer
(`validate_funnel_results`).  Python dicts are modelled as association
lists, Python floats as rationals (no NaN/inf arithmetic is exercised by
the embedded code paths: the division is guarded), Python ints as `Int`,
and SQL text as `String`.  Theorems at the end of the file settle the
specification's testable properties against these definitions.
-/

namespace Funnel

/-- Doubling of single quotes on a character list. -/
def escapeChars : List Char → List Char
  | [] => []
  | c :: cs => if c = '\'' then '\'' :: '\'' :: escapeChars cs else c :: escapeChars cs

/-- Models `s.replace("'", "''")` — quote escaping used throughout the query builder. -/
def escapeQuotes (s : String) : String := String.mk (escapeChars s.data)

/-- Python `str.strip()`: drop leading and trailing whitespace. -/
def stripChars (cs : List Char) : List Char :=
  ((cs.dropWhile Char.isWhitespace).reverse.dropWhile Char.isWhitespace).reverse

/-- Python `str.strip()` on a string. -/
def pyStrip (s : String) : String := String.mk (stripChars s.data)

/-- The dynamic (duck-typed) value of a property filter: Python passes
booleans, numbers, strings, or lists of strings for `in`/`not_in`.
Numbers are modelled as integers (float formatting is irrelevant to the
properties proved here). -/
inductive FilterValue where
  | bool (b : Bool)
  | num (n : Int)
  | str (s : String)
  | list (vs : List String)
deriving DecidableEq, Repr

/-- Python `str(value)` as used when a non-bool, non-numeric value is
interpolated.  For a list this follows Python's `str` of a list of strings
(elements quoted, comma-joined, bracketed); repr escaping of exotic
characters inside elements is not modelled. -/
def pyStr : FilterValue → String
  | .bool b => if b then "True" else "False"
  | .num n => toString n
  | .str s => s
  | .list vs => "[" ++ String.intercalate ", " (vs.map (fun v => "'" ++ v ++ "'")) ++ "]"

/-- Model of `EventFilter` (api.py): property name, operator string, dynamic value. -/
structure EventFilter where
  property : String
  operator : String
  value : FilterValue
deriving DecidableEq, Repr

/-- The comma-join used by the `in`/`not_in` branches of
`build_filter_condition`: a list maps each element through quote escaping,
anything else is `str()`-rendered, split on commas, stripped and escaped. -/
def joinVals (v : FilterValue) : String :=
  let values := match v with
    | .list vs => vs.map escapeQuotes
    | w => ((pyStr w).splitOn ",").map (fun (x : String) => escapeQuotes (pyStrip x))
  String.intercalate ", " (values.map (fun x => "'" ++ x ++ "'"))

/-- Embeds `build_filter_condition` (api.py lines 712-793): converts an
`EventFilter` to a SQL WHERE condition, dispatching on the value's type
(bool, then numeric, then string rendering) with a default-to-equals
branch in every dispatch arm.  Total: no input raises. -/
def build_filter_condition (f : EventFilter) : String :=
  let prop := f.property
  let op := f.operator
  if op = "is_null" then prop ++ " IS NULL"
  else if op = "is_not_null" then prop ++ " IS NOT NULL"
  else
    match f.value with
    | .bool b =>
        let bool_val := if b then "1" else "0"
        if op = "equals" then prop ++ " = " ++ bool_val
        else if op = "not_equals" then prop ++ " != " ++ bool_val
        else prop ++ " = " ++ bool_val
    | .num n =>
        if op = "equals" then prop ++ " = " ++ toString n
        else if op = "not_equals" then prop ++ " != " ++ toString n
        else if op = "greater_than" then prop ++ " > " ++ toString n
        else if op = "less_than" then prop ++ " < " ++ toString n
        else if op = "greater_than_or_equal" then prop ++ " >= " ++ toString n
        else if op = "less_than_or_equal" then prop ++ " <= " ++ toString n
        else prop ++ " = " ++ toString n
    | v =>
        let value_escaped_safe := escapeQuotes (pyStr v)
        let value_escaped := "'" ++ value_escaped_safe ++ "'"
        if op = "equals" then prop ++ " = " ++ value_escaped
        else if op = "not_equals" then prop ++ " != " ++ value_escaped
        else if op = "contains" then prop ++ " LIKE '%" ++ value_escaped_safe ++ "%'"
        else if op = "not_contains" then prop ++ " NOT LIKE '%" ++ value_escaped_safe ++ "%'"
        else if op = "starts_with" then prop ++ " LIKE '" ++ value_escaped_safe ++ "%'"
        else if op = "ends_with" then prop ++ " LIKE '%" ++ value_escaped_safe ++ "'"
        else if op = "in" then prop ++ " IN (" ++ joinVals v ++ ")"
        else if op = "not_in" then prop ++ " NOT IN (" ++ joinVals v ++ ")"
        else prop ++ " = " ++ value_escaped

/-- The operators the type-dispatch of `build_filter_condition` recognizes
for each value type class (plus the type-independent null checks handled
before the dispatch).  Any operator outside this list reaches the
default-to-equals branch of its arm. -/
def recognizedOps : FilterValue → List String
  | .bool _ => ["is_null", "is_not_null", "equals", "not_equals"]
  | .num _ => ["is_null", "is_not_null", "equals", "not_equals", "greater_than",
      "less_than", "greater_than_or_equal", "less_than_or_equal"]
  | .str _ => ["is_null", "is_not_null", "equals", "not_equals", "contains",
      "not_contains", "starts_with", "ends_with", "in", "not_in"]
  | .list _ => ["is_null", "is_not_null", "equals", "not_equals", "contains",
      "not_contains", "starts_with", "ends_with", "in", "not_in"]

/-- Generic association-list lookup (models Python `dict` lookup /
`in` membership; the embedded dicts are built with distinct keys). -/
def alFind {κ α : Type} [DecidableEq κ] (m : List (κ × α)) (k : κ) : Option α :=
  (m.find? (fun p => decide (p.1 = k))).map Prod.snd

/-- Embeds `EVENT_MAPPING` (api.py lines 690-709): event display name → base SQL
condition.  The `category` field of each entry is never consulted by the
query-building logic and is omitted. -/
def EVENT_MAPPING : List (String × String) :=
  [("Page Viewed", "event_type = 'page_view'"),
   ("Click", "event_type = 'click'"),
   ("Form Started", "event_type = 'form_interaction' AND interaction_type = 'focus'"),
   ("Form Submitted", "event_type = 'form_submit'"),
   ("Scroll", "event_type = 'scroll'"),
   ("Error", "event_type = 'error'"),
   ("Any Event", "1=1"),
   ("Landed", "funnel_step = 1"),
   ("Location Select", "funnel_step = 2"),
   ("Date Select", "funnel_step = 3"),
   ("Room Select", "funnel_step = 4"),
   ("Add-on Select", "funnel_step = 5"),
   ("Guest Info", "funnel_step = 6"),
   ("Payment", "funnel_step = 7"),
   ("Confirmation", "funnel_step = 8")]

/-- Embeds `hospitality_step_map` (api.py lines 828-837), the fallback table inside
the hospitality branch of `map_ui_to_sql`. -/
def hospitality_step_map : List (String × String) :=
  [("Landed", "funnel_step = 1"),
   ("Location Select", "funnel_step = 2"),
   ("Date Select", "funnel_step = 3"),
   ("Room Select", "funnel_step = 4"),
   ("Add-on Select", "funnel_step = 5"),
   ("Guest Info", "funnel_step = 6"),
   ("Payment", "funnel_step = 7"),
   ("Confirmation", "funnel_step = 8")]

/-- A run of decimal digits interpreted as a number; `none` when empty or
containing a non-digit. -/
def digitsVal? (cs : List Char) : Option Nat :=
  if cs ≠ [] ∧ cs.all Char.isDigit then
    some (cs.foldl (fun a c => a * 10 + (c.toNat - 48)) 0)
  else none

/-- Python `int(s)` on a string as used by the hospitality fallback: strips
surrounding whitespace, accepts an optional sign followed by digits,
`none` on `ValueError`.  (Underscore digit separators are not modelled.) -/
def pyInt? (s : String) : Option Int :=
  match stripChars s.data with
  | '-' :: rest => (digitsVal? rest).map (fun v => -(v : Int))
  | '+' :: rest => (digitsVal? rest).map (fun v => (v : Int))
  | cs => (digitsVal? cs).map (fun v => (v : Int))

/-- Model of `FunnelStepRequest` (api.py lines 660-664). -/
structure FunnelStepRequest where
  event_category : String := "generic"
  event_type : String
  label : Option String := none
  filters : List EventFilter := []
deriving DecidableEq, Repr

/-- The base-condition resolution of `map_ui_to_sql` (api.py lines
803-851): custom category → mapping lookup else literal `event_type`
match; mapped name → mapped condition; hospitality → hospitality table,
else integer parse as a `funnel_step` number, else `funnel_step = 1`;
anything else → literal `event_type` match with quote escaping. -/
def base_condition_of (step : FunnelStepRequest) : String :=
  if step.event_category = "custom" then
    match alFind EVENT_MAPPING step.event_type with
    | some b => b
    | none => "event_type = '" ++ escapeQuotes step.event_type ++ "'"
  else
    match alFind EVENT_MAPPING step.event_type with
    | some b => b
    | none =>
      if step.event_category = "hospitality" then
        match alFind hospitality_step_map step.event_type with
        | some b => b
        | none =>
          match pyInt? step.event_type with
          | some n => "funnel_step = " ++ toString n
          | none => "funnel_step = 1"
      else "event_type = '" ++ escapeQuotes step.event_type ++ "'"

/-- Embeds `map_ui_to_sql` (api.py lines 796-862): base condition ANDed with the
filter clauses, wrapped in parentheses. -/
def map_ui_to_sql (step : FunnelStepRequest) : String :=
  let base := base_condition_of step
  let filter_clauses := step.filters.map build_filter_condition
  if filter_clauses ≠ [] then
    "(" ++ base ++ " AND " ++ String.intercalate " AND " filter_clauses ++ ")"
  else "(" ++ base ++ ")"

/-- One curated step of the demo preset registry
(config/funnel_config.py).  The `id`/`order` fields are never consulted by
`to_funnel_step_request` and are omitted; no config step carries filters. -/
structure ConfigStep where
  label : String
  event_category : String
  event_type : String
deriving DecidableEq, Repr

/-- Embeds `DEMO_FUNNEL_STEPS` (config/funnel_config.py lines 19-26). -/
def DEMO_FUNNEL_STEPS : List ConfigStep :=
  [⟨"Landed", "hospitality", "Landed"⟩,
   ⟨"Location Select", "hospitality", "Location Select"⟩,
   ⟨"Date Select", "hospitality", "Date Select"⟩,
   ⟨"Room Select", "hospitality", "Room Select"⟩,
   ⟨"Payment", "hospitality", "Payment"⟩,
   ⟨"Confirmation", "hospitality", "Confirmation"⟩]

/-- Embeds `DEMO_FUNNEL_ALTERNATE` (config/funnel_config.py lines 29-35). -/
def DEMO_FUNNEL_ALTERNATE : List ConfigStep :=
  [⟨"Viewed Room", "hospitality", "Room Select"⟩,
   ⟨"Selected Dates", "hospitality", "Date Select"⟩,
   ⟨"Add-on Select", "hospitality", "Add-on Select"⟩,
   ⟨"Initiated Checkout", "hospitality", "Payment"⟩,
   ⟨"Completed Booking", "hospitality", "Confirmation"⟩]

/-- The `DEMO_FUNNELS` registry, keyed by funnel id; only the step list of each
entry is consulted by `resolve_funnel_steps`. -/
def DEMO_FUNNELS : List (String × List ConfigStep) :=
  [("hospitality_booking", DEMO_FUNNEL_STEPS),
   ("hospitality_booking_alt", DEMO_FUNNEL_ALTERNATE)]

/-- Embeds `get_demo_funnel` (config/funnel_config.py lines 54-56). -/
def get_demo_funnel (funnel_id : String) : Option (List ConfigStep) :=
  alFind DEMO_FUNNELS funnel_id

/-- Embeds `to_funnel_step_request` (config/funnel_config.py lines 64-71): every
config step has a label and a category, and none has filters. -/
def to_funnel_step_request (c : ConfigStep) : FunnelStepRequest :=
  { event_category := c.event_category
    event_type := c.event_type
    label := some c.label
    filters := [] }

/-- The demo-mode preset resolution inside `resolve_funnel_steps`
(engines/funnel_engine.py lines 49-58): `funnel_id or "hospitality_booking"`
(falsy = absent or empty string), then the registry entry's steps when that
entry exists with a non-empty step list, else the default demo steps.  The
`ImportError` branch (config module absent) is not modelled: the config
module is present in the repository. -/
def demoResolve (funnel_id : Option String) : List FunnelStepRequest :=
  let fid := match funnel_id with
    | some f => if f = "" then "hospitality_booking" else f
    | none => "hospitality_booking"
  match get_demo_funnel fid with
  | some cfg_steps =>
      if cfg_steps ≠ [] then cfg_steps.map to_funnel_step_request
      else DEMO_FUNNEL_STEPS.map to_funnel_step_request
  | none => DEMO_FUNNEL_STEPS.map to_funnel_step_request

/-- Embeds `resolve_funnel_steps` (engines/funnel_engine.py lines 29-59): dynamic
mode returns the provided steps (empty list when none provided); every
other mode takes the demo path — provided steps verbatim when non-empty,
else the preset registry. -/
def resolve_funnel_steps (mode : String) (steps : Option (List FunnelStepRequest))
    (funnel_id : Option String) : List FunnelStepRequest :=
  if mode = "dynamic" then
    match steps with
    | none => []
    | some l => if l = [] then [] else l
  else
    match steps with
    | none => demoResolve funnel_id
    | some l => if l = [] then demoResolve funnel_id else l

/-- Python `d.get(k, default)` on an association-list dict. -/
def alGet {κ α : Type} [DecidableEq κ] (m : List (κ × α)) (k : κ) (d : α) : α :=
  match alFind m k with
  | some v => v
  | none => d

/-- Models Python `d[k] = v`: overwrite in place when the key is present, append
otherwise. -/
def alSet {κ α : Type} [DecidableEq κ] (m : List (κ × α)) (k : κ) (v : α) :
    List (κ × α) :=
  if (alFind m k).isSome then m.map (fun p => if p.1 = k then (k, v) else p)
  else m ++ [(k, v)]

/-- Per-segment counts at one step (`Dict[str, float]`, floats as ℚ). -/
abbrev SegMap := List (String × ℚ)

/-- The `step_counts` / `all_segment_counts` dict: step index → per-segment counts
(`Dict[int, Dict[str, float]]`). -/
abbrev StepCounts := List (Nat × SegMap)

/-- Models `sum(d.values())` for a per-segment count dict. -/
def sumValues (m : SegMap) : ℚ := (m.map Prod.snd).sum

/-- The count recorded for segment `g` at step `i` (0 when absent). -/
def scGet (sc : StepCounts) (i : Nat) (g : String) : ℚ :=
  alGet (alGet sc i []) g 0

/-- The total count at step `i`, summed across segments. -/
def scTotal (sc : StepCounts) (i : Nat) : ℚ :=
  sumValues (alGet sc i [])

/-- One update `step_counts[i][g] = step_counts[i].get(g, 0) + c`
(creating the inner dict when absent), as in api.py lines 1114-1117 and
1283-1285. -/
def addCount (sc : StepCounts) (i : Nat) (g : String) (c : ℚ) : StepCounts :=
  let seg := alGet sc i []
  alSet sc i (alSet seg g (alGet seg g 0 + c))

/-- Processing one aggregation row `(funnel_level, count)` for segment `g`:
`for step_idx in range(1, step_count + 1): if funnel_level >= step_idx:
add count` — a row at level L contributes its count to steps 1..L. -/
def addRow (sc : StepCounts) (level : Int) (c : ℚ) (g : String) (n : Nat) :
    StepCounts :=
  (List.range' 1 n).foldl
    (fun sc (step_idx : Nat) =>
      if (step_idx : Int) ≤ level then addCount sc step_idx g c else sc)
    sc

/-- One row of the main aggregation query: `funnel_level`, `reached_count`,
and the grouping value (`"all"` when the query is ungrouped), api.py lines
1275-1278. -/
structure AggRow where
  funnel_level : Int
  count : ℚ
  segment : String
deriving DecidableEq, Repr

/-- The row-processing loop of the grouped/ungrouped path (api.py lines
1275-1285): build `step_counts` from the aggregation rows. -/
def build_step_counts (rows : List AggRow) (n : Nat) : StepCounts :=
  rows.foldl (fun sc r => addRow sc r.funnel_level r.count r.segment n) []

/-- The row-processing loops of the named-segment path (api.py lines
978-1117): for each named segment, its query rows `(funnel_level, count)`
are accumulated into `all_segment_counts` under the segment's name. -/
def accumulate_named_segments (sr : List (String × List (Int × ℚ))) (n : Nat) :
    StepCounts :=
  sr.foldl
    (fun acc seg =>
      seg.2.foldl (fun acc row => addRow acc row.1 row.2 seg.1 n) acc)
    []

/-- Python `int(x)` on a float: truncation toward zero. -/
def pyTrunc (q : ℚ) : Int :=
  if 0 ≤ q then Int.floor q else -(Int.floor (-q))

/-- Rounding half to even on rationals (the tie-breaking Python's `round`
uses). -/
def roundHalfEven (q : ℚ) : Int :=
  let f := Int.floor q
  let r := q - (f : ℚ)
  if r < 1 / 2 then f
  else if 1 / 2 < r then f + 1
  else if f % 2 = 0 then f else f + 1

/-- Python `round(x, ndigits)` modelled over exact rationals (binary
floating-point representation error is not modelled). -/
def pyRound (q : ℚ) (ndigits : Nat) : ℚ :=
  (roundHalfEven (q * 10 ^ ndigits) : ℚ) / 10 ^ ndigits

/-- Python truthy `a or b` on an optional label: `None` and the empty
string fall through to `b`. -/
def pyOr (a : Option String) (b : String) : String :=
  match a with
  | some l => if l = "" then b else l
  | none => b

/-- One per-step entry of the funnel response (timing fields, which come
from separate latency queries out of this file's scope, omitted). -/
structure StepMetric where
  step_name : String
  event_type : String
  visitors : Int
  conversion_rate : ℚ
  drop_off_rate : ℚ
  revenue_at_risk : ℚ
  segments : List (String × Int)
deriving DecidableEq, Repr

/-- Placeholder returned by `List.getD` past the end of a result list. -/
def dummyMetric : StepMetric :=
  { step_name := "", event_type := "", visitors := 0, conversion_rate := 0,
    drop_off_rate := 0, revenue_at_risk := 0, segments := [] }

/-- The per-step metric computation of the grouped/ungrouped response loop
(api.py lines 1298-1320): totals summed across segments, conversion rate
guarded by `prev > 0` with policy constant 100.0, drop-off 0.0 at step 1,
revenue floored via `max(0, current - next)` times the 260.0 average
booking value. -/
def buildMetric (sc : StepCounts) (n : Nat) (has_group_by : Bool) (idx : Nat)
    (step : FunnelStepRequest) : StepMetric :=
  let step_num := idx + 1
  let segs := alGet sc step_num []
  let current := sumValues segs
  let prev := if 1 < step_num then scTotal sc (step_num - 1) else current
  let next := if step_num < n then scTotal sc (step_num + 1) else current
  let conversion := if 0 < prev then current / prev * 100 else 100
  let dropOff := if 1 < step_num then 100 - conversion else 0
  let dropped := max 0 (current - next)
  let revenue := dropped * 260
  { step_name := pyOr step.label step.event_type
    event_type := step.event_type
    visitors := pyTrunc current
    conversion_rate := pyRound conversion 1
    drop_off_rate := pyRound dropOff 1
    revenue_at_risk := pyRound revenue 2
    segments :=
      if has_group_by ∧ segs ≠ [] then segs.map (fun p => (p.1, pyTrunc p.2))
      else [("all", pyTrunc current)] }

/-- The per-step metric computation of the named-segment response loop
(api.py lines 1120-1156): identical arithmetic on the totals, with the
`segments` field reporting each named segment's raw reach count. -/
def buildSegMetric (sc : StepCounts) (n : Nat) (idx : Nat)
    (step : FunnelStepRequest) : StepMetric :=
  let step_num := idx + 1
  let segment_data := alGet sc step_num []
  let current := sumValues segment_data
  let prev := if 1 < step_num then scTotal sc (step_num - 1) else current
  let next := if step_num < n then scTotal sc (step_num + 1) else current
  let conversion := if 0 < prev then current / prev * 100 else 100
  let dropOff := if 1 < step_num then 100 - conversion else 0
  let dropped := max 0 (current - next)
  let revenue := dropped * 260
  { step_name := pyOr step.label step.event_type
    event_type := step.event_type
    visitors := pyTrunc current
    conversion_rate := pyRound conversion 1
    drop_off_rate := pyRound dropOff 1
    revenue_at_risk := pyRound revenue 2
    segments := segment_data.map (fun p => (p.1, pyTrunc p.2)) }

/-- The grouped/ungrouped funnel response (api.py lines 1269-1320): rows
processed into `step_counts`, then one metric entry per resolved step. -/
def compute_funnel_result (rows : List AggRow) (steps : List FunnelStepRequest)
    (has_group_by : Bool) : List StepMetric :=
  let n := steps.length
  let sc := build_step_counts rows n
  steps.enum.map (fun p => buildMetric sc n has_group_by p.1 p.2)

/-- The named-segment funnel response (api.py lines 974-1156): each named
segment's rows accumulated under its name, then one metric entry per
resolved step. -/
def compute_segment_result (sr : List (String × List (Int × ℚ)))
    (steps : List FunnelStepRequest) : List StepMetric :=
  let n := steps.length
  let sc := accumulate_named_segments sr n
  steps.enum.map (fun p => buildSegMetric sc n p.1 p.2)

/-- The anomaly message for an ordering violation (engines/funnel_engine.py
line 86; numeric rendering approximates Python's float formatting). -/
def driftMsg (step_idx : Nat) (curr prev : ℚ) : String :=
  "Step " ++ toString step_idx ++ " count (" ++ toString curr ++ ") > Step "
    ++ toString (step_idx - 1) ++ " (" ++ toString prev ++ ") - aggregation drift"

/-- The anomaly message for a population bound violation
(engines/funnel_engine.py line 93). -/
def popMsg (step1 : ℚ) (total : Int) : String :=
  "Step 1 sessions (" ++ toString step1 ++ ") > total sessions in range ("
    ++ toString total ++ ")"

/-- The step-ordering loop of `validate_funnel_results`
(engines/funnel_engine.py lines 82-87): walk the step indices carrying the
previous step's count (initially `float("inf")`, modelled as `none`, which
no count exceeds) and append a drift message whenever a count exceeds its
predecessor. -/
def monoLoop (sc : List (Nat × ℚ)) : Option ℚ → List String → List Nat → List String
  | _, acc, [] => acc
  | none, acc, step_idx :: rest =>
      monoLoop sc (some (alGet sc step_idx 0)) acc rest
  | some prev, acc, step_idx :: rest =>
      let curr := alGet sc step_idx 0
      let acc' := if prev < curr then acc ++ [driftMsg step_idx curr prev] else acc
      monoLoop sc (some curr) acc' rest

/-- Embeds `validate_funnel_results` (engines/funnel_engine.py lines 62-99).
Empty map or zero step count short-circuits to `(True, [])`.  The
population check runs only when a bound is supplied and `step_counts.get(1)`
is truthy (key present with a nonzero count), mirroring the
`if total_sessions_in_range is not None and step_counts.get(1)` guard.
Returns `(len(anomalies) == 0, anomalies)`; total, never raises. -/
def validate_funnel_results (step_counts : List (Nat × ℚ))
    (total_sessions_in_range : Option Int) (step_count : Nat) :
    Bool × List String :=
  if step_counts = [] ∨ step_count = 0 then (true, [])
  else
    let anomalies := monoLoop step_counts none [] (List.range' 1 step_count)
    let anomalies :=
      match total_sessions_in_range, alFind step_counts 1 with
      | some t, some v =>
          if v ≠ 0 ∧ (t : ℚ) < v then anomalies ++ [popMsg v t] else anomalies
      | _, _ => anomalies
    (anomalies.isEmpty, anomalies)

theorem alFind_cons {κ α : Type} [DecidableEq κ] (p : κ × α) (m : List (κ × α)) (k : κ) :
    alFind (p :: m) k = if p.1 = k then some p.2 else alFind m k := by
  by_cases h : p.1 = k <;> simp [alFind, List.find?_cons, h]

theorem alGet_cons {κ α : Type} [DecidableEq κ] (p : κ × α) (m : List (κ × α)) (k : κ) (d : α) :
    alGet (p :: m) k d = if p.1 = k then p.2 else alGet m k d := by
  by_cases h : p.1 = k <;> simp [alGet, alFind_cons, h]

theorem alSet_of_isSome {κ α : Type} [DecidableEq κ] {m : List (κ × α)} {k : κ} (v : α)
    (h : (alFind m k).isSome) :
    alSet m k v = m.map (fun p => if p.1 = k then (k, v) else p) := by
  simp [alSet, h]

theorem alSet_of_none {κ α : Type} [DecidableEq κ] {m : List (κ × α)} {k : κ} (v : α)
    (h : alFind m k = none) :
    alSet m k v = m ++ [(k, v)] := by
  simp [alSet, h]

theorem alGet_map_keyfix_self {κ α : Type} [DecidableEq κ] (m : List (κ × α)) (k : κ)
    (v d : α) :
    alGet (m.map (fun p => if p.1 = k then (k, v) else p)) k d
      = if (alFind m k).isSome then v else d := by
  induction m with
  | nil => simp [alGet, alFind]
  | cons p m ih =>
    by_cases hp : p.1 = k
    · simp [List.map_cons, hp, alGet_cons, alFind_cons]
    · simp [List.map_cons, hp, alGet_cons, alFind_cons, ih]

theorem alGet_map_keyfix_ne {κ α : Type} [DecidableEq κ] (m : List (κ × α)) (k g : κ)
    (v d : α) (hgk : g ≠ k) :
    alGet (m.map (fun p => if p.1 = k then (k, v) else p)) g d = alGet m g d := by
  induction m with
  | nil => simp
  | cons p m ih =>
    by_cases hp : p.1 = k
    · rw [List.map_cons, if_pos hp, alGet_cons, alGet_cons, hp,
        if_neg (fun h => hgk h.symm), if_neg (fun h : k = g => hgk h.symm), ih]
    · rw [List.map_cons, if_neg hp, alGet_cons, alGet_cons, ih]

theorem alGet_append_single_self {κ α : Type} [DecidableEq κ] (m : List (κ × α)) (k : κ)
    (v d : α) (h : alFind m k = none) :
    alGet (m ++ [(k, v)]) k d = v := by
  induction m with
  | nil => simp [alGet_cons]
  | cons p m ih =>
    rw [alFind_cons] at h
    by_cases hp : p.1 = k
    · rw [if_pos hp] at h; cases h
    · rw [if_neg hp] at h
      rw [List.cons_append, alGet_cons, if_neg hp, ih h]

theorem alGet_append_single_ne {κ α : Type} [DecidableEq κ] (m : List (κ × α)) (k g : κ)
    (v d : α) (hgk : g ≠ k) :
    alGet (m ++ [(k, v)]) g d = alGet m g d := by
  induction m with
  | nil =>
    rw [List.nil_append, alGet_cons, if_neg (fun h : (k, v).1 = g => hgk h.symm)]
  | cons p m ih =>
    rw [List.cons_append, alGet_cons, alGet_cons, ih]

theorem alGet_alSet_self {κ α : Type} [DecidableEq κ] (m : List (κ × α)) (k : κ) (v d : α) :
    alGet (alSet m k v) k d = v := by
  by_cases hm : (alFind m k).isSome
  · rw [alSet_of_isSome v hm, alGet_map_keyfix_self, if_pos hm]
  · have hn : alFind m k = none := by simpa using hm
    rw [alSet_of_none v hn, alGet_append_single_self m k v d hn]

theorem alGet_alSet_ne {κ α : Type} [DecidableEq κ] (m : List (κ × α)) (k g : κ) (v d : α)
    (hgk : g ≠ k) : alGet (alSet m k v) g d = alGet m g d := by
  by_cases hm : (alFind m k).isSome
  · rw [alSet_of_isSome v hm, alGet_map_keyfix_ne m k g v d hgk]
  · have hn : alFind m k = none := by simpa using hm
    rw [alSet_of_none v hn, alGet_append_single_ne m k g v d hgk]

theorem alSet_mem_values {κ α : Type} [DecidableEq κ] {m : List (κ × α)} {k : κ} {v : α}
    (q : κ × α) (hq : q ∈ alSet m k v) : q.2 = v ∨ q ∈ m := by
  by_cases hm : (alFind m k).isSome
  · rw [alSet_of_isSome v hm] at hq
    obtain ⟨p, hp, hpq⟩ := List.mem_map.mp hq
    by_cases h : p.1 = k
    · left
      rw [if_pos h] at hpq
      rw [← hpq]
    · right
      rw [if_neg h] at hpq
      rw [← hpq]
      exact hp
  · have hn : alFind m k = none := by simpa using hm
    rw [alSet_of_none v hn] at hq
    rcases List.mem_append.mp hq with h | h
    · right; exact h
    · left
      simp only [List.mem_singleton] at h
      rw [h]

theorem alFind_none_forall {κ α : Type} [DecidableEq κ] {m : List (κ × α)} {k : κ}
    (h : alFind m k = none) : ∀ q ∈ m, q.1 ≠ k := by
  induction m with
  | nil => intro q hq; cases hq
  | cons p m ih =>
    rw [alFind_cons] at h
    by_cases hp : p.1 = k
    · rw [if_pos hp] at h; cases h
    · rw [if_neg hp] at h
      intro q hq
      rcases List.mem_cons.mp hq with rfl | hq'
      · exact hp
      · exact ih h q hq'

theorem keys_map_keyfix {κ α : Type} [DecidableEq κ] (m : List (κ × α)) (k : κ) (v : α) :
    (m.map (fun p => if p.1 = k then (k, v) else p)).map Prod.fst = m.map Prod.fst := by
  induction m with
  | nil => rfl
  | cons p m ih =>
    simp only [List.map_cons, ih]
    by_cases hp : p.1 = k
    · rw [if_pos hp]; simp [hp]
    · rw [if_neg hp]

theorem alSet_keys_nodup {κ α : Type} [DecidableEq κ] {m : List (κ × α)} (k : κ) (v : α)
    (h : (m.map Prod.fst).Nodup) : ((alSet m k v).map Prod.fst).Nodup := by
  by_cases hm : (alFind m k).isSome
  · rw [alSet_of_isSome v hm, keys_map_keyfix]
    exact h
  · have hn : alFind m k = none := by simpa using hm
    rw [alSet_of_none v hn, List.map_append]
    simp only [List.map_cons, List.map_nil]
    rw [List.nodup_append]
    refine ⟨h, List.nodup_singleton _, ?_⟩
    intro a ha
    simp only [List.mem_singleton]
    intro hak
    obtain ⟨p, hp, hpa⟩ := List.mem_map.mp ha
    exact alFind_none_forall hn p hp (by rw [hpa, hak])

theorem map_keyfix_id {κ α : Type} [DecidableEq κ] {m : List (κ × α)} {k : κ} (v : α)
    (h : ∀ q ∈ m, q.1 ≠ k) :
    m.map (fun p => if p.1 = k then (k, v) else p) = m := by
  induction m with
  | nil => rfl
  | cons p m ih =>
    simp only [List.map_cons]
    rw [if_neg (h p (List.mem_cons_self p m)),
      ih (fun q hq => h q (List.mem_cons_of_mem p hq))]

theorem alGet_of_none {κ α : Type} [DecidableEq κ] {m : List (κ × α)} {k : κ} (d : α)
    (h : alFind m k = none) : alGet m k d = d := by
  simp [alGet, h]

theorem alGet_default_or_mem {κ α : Type} [DecidableEq κ] (m : List (κ × α)) (k : κ)
    (d : α) : alGet m k d = d ∨ ∃ p ∈ m, alGet m k d = p.2 := by
  unfold alGet alFind
  cases hf : m.find? (fun p => decide (p.1 = k)) with
  | none => left; rfl
  | some p =>
    right
    exact ⟨p, List.mem_of_find?_eq_some hf, rfl⟩

theorem sumValues_alSet_add (m : SegMap) (k : String) (c : ℚ)
    (h : (m.map Prod.fst).Nodup) :
    sumValues (alSet m k (alGet m k 0 + c)) = sumValues m + c := by
  induction m with
  | nil =>
    have hn : alFind ([] : SegMap) k = none := rfl
    rw [alSet_of_none _ hn, alGet_of_none _ hn]
    simp [sumValues]
  | cons p m ih =>
    simp only [List.map_cons, List.nodup_cons] at h
    by_cases hp : p.1 = k
    · have hs : (alFind (p :: m) k).isSome := by simp [alFind_cons, hp]
      rw [alSet_of_isSome _ hs, alGet_cons, if_pos hp]
      simp only [List.map_cons, if_pos hp]
      have hnk : ∀ q ∈ m, q.1 ≠ k := by
        intro q hq hqk
        have hmem : q.1 ∈ List.map Prod.fst m := List.mem_map_of_mem Prod.fst hq
        rw [hqk, ← hp] at hmem
        exact h.1 hmem
      rw [map_keyfix_id _ hnk]
      simp [sumValues]
      ring
    · rw [alGet_cons, if_neg hp]
      by_cases hm : (alFind m k).isSome
      · have hs : (alFind (p :: m) k).isSome := by simp [alFind_cons, hp, hm]
        rw [alSet_of_isSome _ hs]
        simp only [List.map_cons, if_neg hp]
        have := ih h.2
        rw [alSet_of_isSome _ hm] at this
        simp only [sumValues, List.map_cons, List.sum_cons] at this ⊢
        rw [this]
        ring
      · have hn : alFind (p :: m) k = none := by
          rw [alFind_cons, if_neg hp]
          simpa using hm
        have hn' : alFind m k = none := by simpa using hm
        rw [alGet_of_none _ hn', alSet_of_none _ hn]
        simp [sumValues]
        ring

/-- Well-formedness of the nested count dicts: outer keys distinct and
every inner dict's keys distinct.  Holds for every dict the embedded loops
build, because Python dict insertion never duplicates a key. -/
def SCWF (sc : StepCounts) : Prop :=
  (sc.map Prod.fst).Nodup ∧ ∀ p ∈ sc, (p.2.map Prod.fst).Nodup

theorem SCWF_nil : SCWF [] := ⟨List.nodup_nil, fun p hp => absurd hp (List.not_mem_nil p)⟩

theorem inner_nodup_of_SCWF {sc : StepCounts} (h : SCWF sc) (i : Nat) :
    ((alGet sc i []).map Prod.fst).Nodup := by
  rcases alGet_default_or_mem sc i [] with hd | ⟨p, hp, hv⟩
  · rw [hd]; exact List.nodup_nil
  · rw [hv]; exact h.2 p hp

theorem SCWF_addCount {sc : StepCounts} (i : Nat) (g : String) (c : ℚ) (h : SCWF sc) :
    SCWF (addCount sc i g c) := by
  unfold addCount
  constructor
  · exact alSet_keys_nodup i _ h.1
  · intro p hp
    rcases alSet_mem_values p hp with hv | hm
    · rw [hv]
      exact alSet_keys_nodup g _ (inner_nodup_of_SCWF h i)
    · exact h.2 p hm

theorem scGet_addCount (sc : StepCounts) (i : Nat) (g : String) (c : ℚ) (j : Nat)
    (s : String) :
    scGet (addCount sc i g c) j s
      = scGet sc j s + if j = i ∧ s = g then c else 0 := by
  unfold addCount scGet
  by_cases hj : j = i
  · subst hj
    rw [alGet_alSet_self]
    by_cases hs : s = g
    · subst hs
      rw [alGet_alSet_self]
      simp
    · rw [alGet_alSet_ne _ _ _ _ _ hs]
      simp [hs]
  · rw [alGet_alSet_ne _ _ _ _ _ hj]
    simp [hj]

theorem scTotal_addCount (sc : StepCounts) (i : Nat) (g : String) (c : ℚ) (j : Nat)
    (h : SCWF sc) :
    scTotal (addCount sc i g c) j = scTotal sc j + if j = i then c else 0 := by
  unfold addCount scTotal
  by_cases hj : j = i
  · subst hj
    rw [alGet_alSet_self, sumValues_alSet_add _ _ _ (inner_nodup_of_SCWF h j)]
    simp
  · rw [alGet_alSet_ne _ _ _ _ _ hj]
    simp [hj]

theorem SCWF_addRow_aux (level : Int) (c : ℚ) (g : String) :
    ∀ (len start : Nat) (sc : StepCounts), SCWF sc →
      SCWF ((List.range' start len).foldl
        (fun sc (step_idx : Nat) =>
          if (step_idx : Int) ≤ level then addCount sc step_idx g c else sc) sc) := by
  intro len
  induction len with
  | zero => intro start sc h; simpa using h
  | succ len ih =>
    intro start sc h
    rw [List.range'_succ, List.foldl_cons]
    apply ih
    by_cases hc : (start : Int) ≤ level
    · rw [if_pos hc]; exact SCWF_addCount start g c h
    · rw [if_neg hc]; exact h

theorem SCWF_addRow (sc : StepCounts) (level : Int) (c : ℚ) (g : String) (n : Nat)
    (h : SCWF sc) : SCWF (addRow sc level c g n) :=
  SCWF_addRow_aux level c g n 1 sc h

theorem scGet_addRow_aux (level : Int) (c : ℚ) (g : String) (j : Nat) (s : String) :
    ∀ (len start : Nat) (sc : StepCounts),
      scGet ((List.range' start len).foldl
          (fun sc (step_idx : Nat) =>
            if (step_idx : Int) ≤ level then addCount sc step_idx g c else sc) sc) j s
        = scGet sc j s
          + if start ≤ j ∧ j < start + len ∧ (j : Int) ≤ level ∧ s = g then c else 0 := by
  intro len
  induction len with
  | zero =>
    intro start sc
    have hf : ¬(start ≤ j ∧ j < start + 0 ∧ (j : Int) ≤ level ∧ s = g) := by
      rintro ⟨a, b, _, _⟩
      omega
    rw [show List.range' start 0 = ([] : List Nat) from rfl, List.foldl_nil,
      if_neg hf, add_zero]
  | succ len ih =>
    intro start sc
    rw [List.range'_succ, List.foldl_cons, ih]
    by_cases hc : (start : Int) ≤ level
    · rw [if_pos hc, scGet_addCount]
      by_cases hj : j = start ∧ s = g
      · obtain ⟨hjs, hsg⟩ := hj
        rw [if_pos (⟨hjs, hsg⟩ : j = start ∧ s = g)]
        have h1 : start ≤ j ∧ j < start + (len + 1) ∧ (j : Int) ≤ level ∧ s = g :=
          ⟨by omega, by omega, by rw [hjs]; exact hc, hsg⟩
        rw [if_pos h1]
        have h2 : ¬(start + 1 ≤ j ∧ j < start + 1 + len ∧ (j : Int) ≤ level ∧ s = g) := by
          rintro ⟨a, _, _, _⟩
          omega
        rw [if_neg h2]
        ring
      · rw [if_neg hj]
        have hiff : (start + 1 ≤ j ∧ j < start + 1 + len ∧ (j : Int) ≤ level ∧ s = g)
            ↔ (start ≤ j ∧ j < start + (len + 1) ∧ (j : Int) ≤ level ∧ s = g) := by
          constructor
          · rintro ⟨a, b, cc, dd⟩
            exact ⟨by omega, by omega, cc, dd⟩
          · rintro ⟨a, b, cc, dd⟩
            refine ⟨?_, by omega, cc, dd⟩
            rcases Nat.lt_or_ge start j with hlt | hge
            · omega
            · exfalso
              have : j = start := by omega
              exact hj ⟨this, dd⟩
        rw [if_congr hiff rfl rfl]
        ring
    · rw [if_neg hc]
      have hiff : (start + 1 ≤ j ∧ j < start + 1 + len ∧ (j : Int) ≤ level ∧ s = g)
          ↔ (start ≤ j ∧ j < start + (len + 1) ∧ (j : Int) ≤ level ∧ s = g) := by
        constructor
        · rintro ⟨a, b, cc, dd⟩
          exact ⟨by omega, by omega, cc, dd⟩
        · rintro ⟨a, b, cc, dd⟩
          refine ⟨?_, by omega, cc, dd⟩
          rcases Nat.lt_or_ge start j with hlt | hge
          · omega
          · exfalso
            have hjs : j = start := by omega
            rw [hjs] at cc
            exact hc cc
      rw [if_congr hiff rfl rfl]

theorem scGet_addRow (sc : StepCounts) (level : Int) (c : ℚ) (g : String) (n : Nat)
    (j : Nat) (s : String) :
    scGet (addRow sc level c g n) j s
      = scGet sc j s
        + if 1 ≤ j ∧ j ≤ n ∧ (j : Int) ≤ level ∧ s = g then c else 0 := by
  unfold addRow
  rw [scGet_addRow_aux]
  have hiff : (1 ≤ j ∧ j < 1 + n ∧ (j : Int) ≤ level ∧ s = g)
      ↔ (1 ≤ j ∧ j ≤ n ∧ (j : Int) ≤ level ∧ s = g) := by
    constructor
    · rintro ⟨a, b, cc, dd⟩; exact ⟨a, by omega, cc, dd⟩
    · rintro ⟨a, b, cc, dd⟩; exact ⟨a, by omega, cc, dd⟩
  rw [if_congr hiff rfl rfl]

theorem scTotal_addRow_aux (level : Int) (c : ℚ) (g : String) (j : Nat) :
    ∀ (len start : Nat) (sc : StepCounts), SCWF sc →
      scTotal ((List.range' start len).foldl
          (fun sc (step_idx : Nat) =>
            if (step_idx : Int) ≤ level then addCount sc step_idx g c else sc) sc) j
        = scTotal sc j
          + if start ≤ j ∧ j < start + len ∧ (j : Int) ≤ level then c else 0 := by
  intro len
  induction len with
  | zero =>
    intro start sc _
    have hf : ¬(start ≤ j ∧ j < start + 0 ∧ (j : Int) ≤ level) := by
      rintro ⟨a, b, _⟩
      omega
    rw [show List.range' start 0 = ([] : List Nat) from rfl, List.foldl_nil,
      if_neg hf, add_zero]
  | succ len ih =>
    intro start sc hwf
    rw [List.range'_succ, List.foldl_cons]
    by_cases hc : (start : Int) ≤ level
    · rw [if_pos hc, ih (start + 1) _ (SCWF_addCount start g c hwf),
        scTotal_addCount _ _ _ _ _ hwf]
      by_cases hj : j = start
      · rw [if_pos hj]
        have h1 : start ≤ j ∧ j < start + (len + 1) ∧ (j : Int) ≤ level :=
          ⟨by omega, by omega, by rw [hj]; exact hc⟩
        rw [if_pos h1]
        have h2 : ¬(start + 1 ≤ j ∧ j < start + 1 + len ∧ (j : Int) ≤ level) := by
          rintro ⟨a, _, _⟩
          omega
        rw [if_neg h2]
        ring
      · rw [if_neg hj]
        have hiff : (start + 1 ≤ j ∧ j < start + 1 + len ∧ (j : Int) ≤ level)
            ↔ (start ≤ j ∧ j < start + (len + 1) ∧ (j : Int) ≤ level) := by
          constructor
          · rintro ⟨a, b, cc⟩
            exact ⟨by omega, by omega, cc⟩
          · rintro ⟨a, b, cc⟩
            refine ⟨by omega, by omega, cc⟩
        rw [if_congr hiff rfl rfl]
        ring
    · rw [if_neg hc, ih (start + 1) _ hwf]
      have hiff : (start + 1 ≤ j ∧ j < start + 1 + len ∧ (j : Int) ≤ level)
          ↔ (start ≤ j ∧ j < start + (len + 1) ∧ (j : Int) ≤ level) := by
        constructor
        · rintro ⟨a, b, cc⟩
          exact ⟨by omega, by omega, cc⟩
        · rintro ⟨a, b, cc⟩
          refine ⟨?_, by omega, cc⟩
          rcases Nat.lt_or_ge start j with hlt | hge
          · omega
          · exfalso
            have hjs : j = start := by omega
            rw [hjs] at cc
            exact hc cc
      rw [if_congr hiff rfl rfl]

theorem scTotal_addRow (sc : StepCounts) (level : Int) (c : ℚ) (g : String) (n : Nat)
    (j : Nat) (hwf : SCWF sc) :
    scTotal (addRow sc level c g n) j
      = scTotal sc j + if 1 ≤ j ∧ j ≤ n ∧ (j : Int) ≤ level then c else 0 := by
  unfold addRow
  rw [scTotal_addRow_aux level c g j n 1 sc hwf]
  have hiff : (1 ≤ j ∧ j < 1 + n ∧ (j : Int) ≤ level)
      ↔ (1 ≤ j ∧ j ≤ n ∧ (j : Int) ≤ level) := by
    constructor
    · rintro ⟨a, b, cc⟩; exact ⟨a, by omega, cc⟩
    · rintro ⟨a, b, cc⟩; exact ⟨a, by omega, cc⟩
  rw [if_congr hiff rfl rfl]

/-- The contribution of one aggregation row to the count of segment `s` at
step `j`: its count exactly when `1 ≤ j ≤ n`, the row reaches level `j`,
and the row belongs to that segment. -/
def rowContrib (r : AggRow) (n j : Nat) (s : String) : ℚ :=
  if 1 ≤ j ∧ j ≤ n ∧ (j : Int) ≤ r.funnel_level ∧ s = r.segment then r.count else 0

/-- The contribution of one aggregation row to the step-`j` total. -/
def rowTotContrib (r : AggRow) (n j : Nat) : ℚ :=
  if 1 ≤ j ∧ j ≤ n ∧ (j : Int) ≤ r.funnel_level then r.count else 0

theorem scGet_foldl_rows (n : Nat) (j : Nat) (s : String) :
    ∀ (rows : List AggRow) (sc : StepCounts),
      scGet (rows.foldl (fun sc r => addRow sc r.funnel_level r.count r.segment n) sc) j s
        = scGet sc j s + (rows.map (fun r => rowContrib r n j s)).sum := by
  intro rows
  induction rows with
  | nil => intro sc; simp
  | cons r rows ih =>
    intro sc
    rw [List.foldl_cons, ih, scGet_addRow, List.map_cons, List.sum_cons]
    unfold rowContrib
    ring

theorem SCWF_foldl_rows (n : Nat) :
    ∀ (rows : List AggRow) (sc : StepCounts), SCWF sc →
      SCWF (rows.foldl (fun sc r => addRow sc r.funnel_level r.count r.segment n) sc) := by
  intro rows
  induction rows with
  | nil => intro sc h; simpa using h
  | cons r rows ih =>
    intro sc h
    rw [List.foldl_cons]
    exact ih _ (SCWF_addRow _ _ _ _ _ h)

theorem scTotal_foldl_rows (n : Nat) (j : Nat) :
    ∀ (rows : List AggRow) (sc : StepCounts), SCWF sc →
      scTotal (rows.foldl (fun sc r => addRow sc r.funnel_level r.count r.segment n) sc) j
        = scTotal sc j + (rows.map (fun r => rowTotContrib r n j)).sum := by
  intro rows
  induction rows with
  | nil => intro sc _; simp
  | cons r rows ih =>
    intro sc h
    rw [List.foldl_cons, ih _ (SCWF_addRow _ _ _ _ _ h), scTotal_addRow _ _ _ _ _ _ h,
      List.map_cons, List.sum_cons]
    unfold rowTotContrib
    ring

/-- Each segment's count at step `j` is the sum of the contributions of the
rows processed into `step_counts`: a row at level `L` counts toward exactly
the steps `1..min L n` of its segment. -/
theorem scGet_build (rows : List AggRow) (n j : Nat) (s : String) :
    scGet (build_step_counts rows n) j s
      = (rows.map (fun r => rowContrib r n j s)).sum := by
  unfold build_step_counts
  rw [scGet_foldl_rows]
  simp [scGet, alGet, alFind]

/-- The step-`j` total across segments is the sum of the row counts at
levels `≥ j` (for `1 ≤ j ≤ n`). -/
theorem scTotal_build (rows : List AggRow) (n j : Nat) :
    scTotal (build_step_counts rows n) j
      = (rows.map (fun r => rowTotContrib r n j)).sum := by
  unfold build_step_counts
  rw [scTotal_foldl_rows n j rows [] SCWF_nil]
  simp [scTotal, alGet, alFind, sumValues]

/-- The named-segment accumulation loops are the row loop applied to the
flattened list of `(level, count, segment-name)` rows. -/
theorem accumulate_eq_build (sr : List (String × List (Int × ℚ))) (n : Nat) :
    accumulate_named_segments sr n
      = build_step_counts
          (sr.flatMap (fun seg => seg.2.map (fun row => AggRow.mk row.1 row.2 seg.1))) n := by
  unfold accumulate_named_segments build_step_counts
  generalize ([] : StepCounts) = init
  induction sr generalizing init with
  | nil => rfl
  | cons seg sr ih =>
    rw [List.foldl_cons, List.flatMap_cons, List.foldl_append, ih, List.foldl_map]

theorem rowContrib_mono (r : AggRow) (n i : Nat) (s : String) (hc : 0 ≤ r.count)
    (h1 : 1 ≤ i) : rowContrib r n (i + 1) s ≤ rowContrib r n i s := by
  unfold rowContrib
  by_cases hA : 1 ≤ i + 1 ∧ i + 1 ≤ n ∧ ((i + 1 : Nat) : Int) ≤ r.funnel_level ∧ s = r.segment
  · rw [if_pos hA]
    have hB : 1 ≤ i ∧ i ≤ n ∧ (i : Int) ≤ r.funnel_level ∧ s = r.segment := by
      obtain ⟨_, b, cc, dd⟩ := hA
      refine ⟨h1, by omega, ?_, dd⟩
      push_cast at cc ⊢
      omega
    rw [if_pos hB]
  · rw [if_neg hA]
    by_cases hB : 1 ≤ i ∧ i ≤ n ∧ (i : Int) ≤ r.funnel_level ∧ s = r.segment
    · rw [if_pos hB]; exact hc
    · rw [if_neg hB]

theorem rowTotContrib_mono (r : AggRow) (n i : Nat) (hc : 0 ≤ r.count)
    (h1 : 1 ≤ i) : rowTotContrib r n (i + 1) ≤ rowTotContrib r n i := by
  unfold rowTotContrib
  by_cases hA : 1 ≤ i + 1 ∧ i + 1 ≤ n ∧ ((i + 1 : Nat) : Int) ≤ r.funnel_level
  · rw [if_pos hA]
    have hB : 1 ≤ i ∧ i ≤ n ∧ (i : Int) ≤ r.funnel_level := by
      obtain ⟨_, b, cc⟩ := hA
      refine ⟨h1, by omega, ?_⟩
      push_cast at cc ⊢
      omega
    rw [if_pos hB]
  · rw [if_neg hA]
    by_cases hB : 1 ≤ i ∧ i ≤ n ∧ (i : Int) ≤ r.funnel_level
    · rw [if_pos hB]; exact hc
    · rw [if_neg hB]

theorem enum_map_getD {α β : Type} (l : List α) (f : Nat × α → β) (idx : Nat) (d : β)
    (dflt : α) (h : idx < l.length) :
    (l.enum.map f).getD idx d = f (idx, l.getD idx dflt) := by
  rw [List.getD_eq_getElem?_getD, List.getElem?_map, List.getElem?_enum,
    List.getElem?_eq_getElem h, List.getD_eq_getElem?_getD, List.getElem?_eq_getElem h]
  rfl

theorem roundHalfEven_nonneg {q : ℚ} (h : 0 ≤ q) : 0 ≤ roundHalfEven q := by
  unfold roundHalfEven
  have hf : (0 : Int) ≤ Int.floor q := Int.floor_nonneg.mpr h
  simp only []
  split_ifs <;> omega

theorem pyRound_nonneg {q : ℚ} (n : Nat) (h : 0 ≤ q) : 0 ≤ pyRound q n := by
  unfold pyRound
  apply div_nonneg
  · exact_mod_cast roundHalfEven_nonneg (by positivity)
  · positivity

theorem roundHalfEven_intCast (z : Int) : roundHalfEven (z : ℚ) = z := by
  unfold roundHalfEven
  rw [Int.floor_intCast]
  norm_num

theorem pyRound_100 : pyRound 100 1 = 100 := by
  unfold pyRound
  norm_num
  rw [show ((1000 : ℚ)) = ((1000 : Int) : ℚ) by norm_num, roundHalfEven_intCast]
  norm_num

theorem pyRound_0 (n : Nat) : pyRound 0 n = 0 := by
  unfold pyRound
  rw [zero_mul, show ((0 : ℚ)) = ((0 : Int) : ℚ) by norm_num, roundHalfEven_intCast]
  norm_num

theorem compute_funnel_result_getD (rows : List AggRow) (steps : List FunnelStepRequest)
    (gb : Bool) (idx : Nat) (dflt : FunnelStepRequest) (h : idx < steps.length) :
    (compute_funnel_result rows steps gb).getD idx dummyMetric
      = buildMetric (build_step_counts rows steps.length) steps.length gb idx
          (steps.getD idx dflt) := by
  unfold compute_funnel_result
  exact enum_map_getD steps _ idx dummyMetric dflt h

theorem compute_segment_result_getD (sr : List (String × List (Int × ℚ)))
    (steps : List FunnelStepRequest) (idx : Nat) (dflt : FunnelStepRequest)
    (h : idx < steps.length) :
    (compute_segment_result sr steps).getD idx dummyMetric
      = buildSegMetric (accumulate_named_segments sr steps.length) steps.length idx
          (steps.getD idx dflt) := by
  unfold compute_segment_result
  exact enum_map_getD steps _ idx dummyMetric dflt h

theorem buildMetric_step1 (sc : StepCounts) (n : Nat) (gb : Bool)
    (step : FunnelStepRequest) :
    (buildMetric sc n gb 0 step).conversion_rate = 100
      ∧ (buildMetric sc n gb 0 step).drop_off_rate = 0 := by
  unfold buildMetric
  simp only []
  rw [if_neg (by omega : ¬(1 : Nat) < 0 + 1)]
  constructor
  · by_cases hc : 0 < sumValues (alGet sc (0 + 1) [])
    · rw [if_pos hc, div_self (ne_of_gt hc), one_mul]
      exact pyRound_100
    · rw [if_neg hc]
      exact pyRound_100
  · exact pyRound_0 1

theorem buildSegMetric_step1 (sc : StepCounts) (n : Nat) (step : FunnelStepRequest) :
    (buildSegMetric sc n 0 step).conversion_rate = 100
      ∧ (buildSegMetric sc n 0 step).drop_off_rate = 0 := by
  unfold buildSegMetric
  simp only []
  rw [if_neg (by omega : ¬(1 : Nat) < 0 + 1)]
  constructor
  · by_cases hc : 0 < sumValues (alGet sc (0 + 1) [])
    · rw [if_pos hc, div_self (ne_of_gt hc), one_mul]
      exact pyRound_100
    · rw [if_neg hc]
      exact pyRound_100
  · exact pyRound_0 1

/-- Generic steps used for concrete evaluations. -/
def stepA : FunnelStepRequest := ⟨"generic", "a", none, []⟩

def stepB : FunnelStepRequest := ⟨"generic", "b", none, []⟩

def stepC : FunnelStepRequest := ⟨"generic", "c", none, []⟩

/-- Aggregation rows realizing Scenario A/C of the spec: ungrouped step
totals 100, 60, 30 (40 sessions stop at level 1, 30 at level 2, 30 reach
level 3). -/
def scenarioRows : List AggRow := [⟨1, 40, "all"⟩, ⟨2, 30, "all"⟩, ⟨3, 30, "all"⟩]

/-- C5: Step-1 convention — in both the grouped/ungrouped response path and
the named-segment response path, whatever the underlying counts (including
all-zero data), the first step's reported conversion_rate is 100.0 and its
drop_off_rate is 0.0. -/
theorem C5_step1_convention :
    (∀ (rows : List AggRow) (step : FunnelStepRequest) (rest : List FunnelStepRequest)
        (gb : Bool),
      ((compute_funnel_result rows (step :: rest) gb).getD 0 dummyMetric).conversion_rate
          = 100
        ∧ ((compute_funnel_result rows (step :: rest) gb).getD 0 dummyMetric).drop_off_rate
          = 0)
    ∧ (∀ (sr : List (String × List (Int × ℚ))) (step : FunnelStepRequest)
        (rest : List FunnelStepRequest),
      ((compute_segment_result sr (step :: rest)).getD 0 dummyMetric).conversion_rate
          = 100
        ∧ ((compute_segment_result sr (step :: rest)).getD 0 dummyMetric).drop_off_rate
          = 0) := by
  constructor
  · intro rows step rest gb
    rw [compute_funnel_result_getD rows (step :: rest) gb 0 step (by simp)]
    exact buildMetric_step1 _ _ _ _
  · intro sr step rest
    rw [compute_segment_result_getD sr (step :: rest) 0 step (by simp)]
    exact buildSegMetric_step1 _ _ _

theorem buildMetric_zero_prev (sc : StepCounts) (n : Nat) (gb : Bool) (idx : Nat)
    (step : FunnelStepRequest) (h1 : 1 ≤ idx) (hz : scTotal sc idx = 0) :
    (buildMetric sc n gb idx step).conversion_rate = 100
      ∧ (buildMetric sc n gb idx step).drop_off_rate = 0 := by
  unfold buildMetric
  simp only [Nat.add_sub_cancel]
  rw [if_pos (by omega : 1 < idx + 1), hz, if_neg (lt_irrefl 0)]
  constructor
  · exact pyRound_100
  · rw [if_pos (by omega : 1 < idx + 1)]
    norm_num
    exact pyRound_0 1

/-- C1 (amended): zero-population guard — when the previous step's total
reach is 0 for a step i>1, the reported conversion_rate is the policy
constant 100.0 (the same constant the code uses for step 1, not the 0.0 the
spec states), the reported drop_off_rate is 0.0, and the division is never
performed (no NaN, no exception). -/
theorem C1_zero_prev_conversion (rows : List AggRow) (steps : List FunnelStepRequest)
    (gb : Bool) (idx : Nat) (h : idx < steps.length) (h1 : 1 ≤ idx)
    (hz : scTotal (build_step_counts rows steps.length) idx = 0) :
    ((compute_funnel_result rows steps gb).getD idx dummyMetric).conversion_rate = 100
      ∧ ((compute_funnel_result rows steps gb).getD idx dummyMetric).drop_off_rate = 0 := by
  rw [compute_funnel_result_getD rows steps gb idx stepA h]
  exact buildMetric_zero_prev _ _ _ _ _ h1 hz

theorem C1_zero_prev_conversion_witness :
    (1 < ([stepA, stepB] : List FunnelStepRequest).length ∧ 1 ≤ 1
        ∧ scTotal (build_step_counts [] ([stepA, stepB] : List FunnelStepRequest).length) 1 = 0)
      ∧ ((compute_funnel_result [] [stepA, stepB] false).getD 1 dummyMetric).conversion_rate
          = 100 :=
  ⟨⟨by decide, le_refl 1, by decide⟩,
    (C1_zero_prev_conversion [] [stepA, stepB] false 1 (by decide) (le_refl 1) (by decide)).1⟩

/-- C1 counterexample: with no aggregation rows at all (so the previous
step's reach count is 0), step 2's reported conversion_rate is 100.0 — not
the 0.0 the claim states. -/
theorem C1_zero_prev_claim_cx :
    ((compute_funnel_result [] [stepA, stepB] false).getD 1 dummyMetric).conversion_rate = 100
      ∧ ((compute_funnel_result [] [stepA, stepB] false).getD 1 dummyMetric).conversion_rate
          ≠ 0 := by
  rw [compute_funnel_result_getD [] [stepA, stepB] false 1 stepA (by simp)]
  rw [show ([stepA, stepB] : List FunnelStepRequest).length = 2 from rfl,
    show ([stepA, stepB] : List FunnelStepRequest).getD 1 stepA = stepB from rfl]
  have h := buildMetric_zero_prev (build_step_counts [] 2) 2 false 1 stepB (le_refl 1) rfl
  exact ⟨h.1, by rw [h.1]; norm_num⟩

theorem scenario_step_counts : build_step_counts scenarioRows 3
    = [(1, [("all", (100 : ℚ))]), (2, [("all", 60)]), (3, [("all", 30)])] := by
  simp [build_step_counts, scenarioRows, addRow, addCount, alSet, alGet, alFind, List.range']
  norm_num

/-- C6: revenue floor and formula — revenue_at_risk is non-negative for
every step of both response paths (dropped is floored at zero), the last
step's revenue is exactly 0 (its `next` is defined as `current`), and in
Scenario C (totals 100/60/30, average value 260.0) step 2 reports
revenue_at_risk = 30 × 260 = 7800.0. -/
theorem C6_revenue_floor :
    (∀ (sc : StepCounts) (n : Nat) (gb : Bool) (idx : Nat) (step : FunnelStepRequest),
        0 ≤ (buildMetric sc n gb idx step).revenue_at_risk)
    ∧ (∀ (sc : StepCounts) (n : Nat) (idx : Nat) (step : FunnelStepRequest),
        0 ≤ (buildSegMetric sc n idx step).revenue_at_risk)
    ∧ (∀ (sc : StepCounts) (gb : Bool) (idx : Nat) (step : FunnelStepRequest),
        (buildMetric sc (idx + 1) gb idx step).revenue_at_risk = 0)
    ∧ ((compute_funnel_result scenarioRows [stepA, stepB, stepC] false).getD 1
        dummyMetric).revenue_at_risk = 7800 := by
  refine ⟨?_, ?_, ?_, ?_⟩
  · intro sc n gb idx step
    unfold buildMetric
    simp only []
    apply pyRound_nonneg
    apply mul_nonneg (le_max_left 0 _)
    norm_num
  · intro sc n idx step
    unfold buildSegMetric
    simp only []
    apply pyRound_nonneg
    apply mul_nonneg (le_max_left 0 _)
    norm_num
  · intro sc gb idx step
    unfold buildMetric
    simp only []
    rw [if_neg (lt_irrefl (idx + 1))]
    norm_num
    exact pyRound_0 2
  · rw [compute_funnel_result_getD scenarioRows [stepA, stepB, stepC] false 1 stepA (by simp)]
    rw [show ([stepA, stepB, stepC] : List FunnelStepRequest).length = 3 from rfl,
      scenario_step_counts]
    unfold buildMetric
    simp only []
    norm_num [scTotal, sumValues, alGet, alFind, pyRound, roundHalfEven]

/-- C2: monotonicity — the per-step totals assembled from aggregation rows
with non-negative counts are non-increasing, because a row at funnel level
L contributes its count to exactly the steps 1..L. -/
theorem C2_stepreach_monotone (rows : List AggRow) (n i : Nat)
    (hc : ∀ r ∈ rows, 0 ≤ r.count) (h1 : 1 ≤ i) (_hn : i + 1 ≤ n) :
    scTotal (build_step_counts rows n) (i + 1) ≤ scTotal (build_step_counts rows n) i := by
  rw [scTotal_build, scTotal_build]
  apply List.sum_le_sum
  intro r hr
  exact rowTotContrib_mono r n i (hc r hr) h1

theorem C2_stepreach_monotone_witness :
    ((∀ r ∈ scenarioRows, 0 ≤ r.count) ∧ 1 ≤ 1 ∧ 1 + 1 ≤ 3)
      ∧ scTotal (build_step_counts scenarioRows 3) (1 + 1)
          ≤ scTotal (build_step_counts scenarioRows 3) 1 :=
  ⟨⟨by decide, le_refl 1, by decide⟩,
    C2_stepreach_monotone scenarioRows 3 1 (by decide) (le_refl 1) (by decide)⟩

/-- C10: per-group monotonicity — in both the grouped-row path and the
named-segment path, each individual group's per-step count series is
non-increasing, given non-negative row counts. -/
theorem C10_per_group_monotone (rows : List AggRow)
    (sr : List (String × List (Int × ℚ))) (n i : Nat) (g : String)
    (hc : ∀ r ∈ rows, 0 ≤ r.count)
    (hs : ∀ s ∈ sr, ∀ row ∈ s.2, 0 ≤ row.2)
    (h1 : 1 ≤ i) (_hn : i + 1 ≤ n) :
    scGet (build_step_counts rows n) (i + 1) g ≤ scGet (build_step_counts rows n) i g
      ∧ scGet (accumulate_named_segments sr n) (i + 1) g
          ≤ scGet (accumulate_named_segments sr n) i g := by
  constructor
  · rw [scGet_build, scGet_build]
    apply List.sum_le_sum
    intro r hr
    exact rowContrib_mono r n i g (hc r hr) h1
  · rw [accumulate_eq_build, scGet_build, scGet_build]
    apply List.sum_le_sum
    intro r hr
    apply rowContrib_mono r n i g ?_ h1
    obtain ⟨s, hsmem, hrow⟩ := List.mem_flatMap.mp hr
    obtain ⟨row, hrowmem, rfl⟩ := List.mem_map.mp hrow
    exact hs s hsmem row hrowmem

/-- Grouped rows and a named-segment result set used as concrete inputs. -/
def groupedRows : List AggRow := [⟨2, 3, "mobile"⟩, ⟨1, 2, "desktop"⟩]

def namedSegRows : List (String × List (Int × ℚ)) := [("Mobile", [(2, 2), (1, 1)])]

theorem C10_per_group_monotone_witness :
    ((∀ r ∈ groupedRows, 0 ≤ r.count)
        ∧ (∀ s ∈ namedSegRows, ∀ row ∈ s.2, 0 ≤ row.2) ∧ 1 ≤ 1 ∧ 1 + 1 ≤ 2)
      ∧ scGet (build_step_counts groupedRows 2) (1 + 1) "mobile"
          ≤ scGet (build_step_counts groupedRows 2) 1 "mobile" :=
  ⟨⟨by decide, by decide, le_refl 1, by decide⟩,
    (C10_per_group_monotone groupedRows namedSegRows 2 1 "mobile" (by decide) (by decide)
      (le_refl 1) (by decide)).1⟩

theorem buildSegMetric_totals_only (sc1 sc2 : StepCounts) (n idx : Nat)
    (step1 step2 : FunnelStepRequest)
    (h0 : scTotal sc1 idx = scTotal sc2 idx)
    (h1 : scTotal sc1 (idx + 1) = scTotal sc2 (idx + 1))
    (h2 : scTotal sc1 (idx + 1 + 1) = scTotal sc2 (idx + 1 + 1)) :
    (buildSegMetric sc1 n idx step1).conversion_rate
        = (buildSegMetric sc2 n idx step2).conversion_rate
      ∧ (buildSegMetric sc1 n idx step1).drop_off_rate
        = (buildSegMetric sc2 n idx step2).drop_off_rate
      ∧ (buildSegMetric sc1 n idx step1).revenue_at_risk
        = (buildSegMetric sc2 n idx step2).revenue_at_risk := by
  unfold buildSegMetric
  simp only [Nat.add_sub_cancel]
  have h1' : sumValues (alGet sc1 (idx + 1) []) = sumValues (alGet sc2 (idx + 1) []) := h1
  rw [h0, h1', h2]
  exact ⟨rfl, rfl, rfl⟩

/-- C9: segmented metrics on totals only — in the named-segment path, the
reported conversion_rate, drop_off_rate, and revenue_at_risk at each step
are functions of the per-step totals summed across all segments (two
segment result sets with the same totals yield identical metrics, however
the counts are distributed), while the `segments` field reports each
segment's raw reach count; percentages are never recomputed per segment. -/
theorem C9_segment_metrics_totals (sr1 sr2 : List (String × List (Int × ℚ)))
    (steps : List FunnelStepRequest) (idx : Nat) (h : idx < steps.length)
    (htot : ∀ j, j ≤ steps.length + 1 →
      scTotal (accumulate_named_segments sr1 steps.length) j
        = scTotal (accumulate_named_segments sr2 steps.length) j) :
    (((compute_segment_result sr1 steps).getD idx dummyMetric).conversion_rate
        = ((compute_segment_result sr2 steps).getD idx dummyMetric).conversion_rate
      ∧ ((compute_segment_result sr1 steps).getD idx dummyMetric).drop_off_rate
        = ((compute_segment_result sr2 steps).getD idx dummyMetric).drop_off_rate
      ∧ ((compute_segment_result sr1 steps).getD idx dummyMetric).revenue_at_risk
        = ((compute_segment_result sr2 steps).getD idx dummyMetric).revenue_at_risk)
    ∧ ((compute_segment_result sr1 steps).getD idx dummyMetric).segments
        = (alGet (accumulate_named_segments sr1 steps.length) (idx + 1) []).map
            (fun p => (p.1, pyTrunc p.2)) := by
  rw [compute_segment_result_getD sr1 steps idx stepA h,
    compute_segment_result_getD sr2 steps idx stepA h]
  constructor
  · exact buildSegMetric_totals_only _ _ _ idx _ _
      (htot idx (by omega)) (htot (idx + 1) (by omega)) (htot (idx + 1 + 1) (by omega))
  · rfl

/-- Two named-segment result sets with different segment splits but the
same per-step totals (10 at step 1, 2 at step 2). -/
def segRowsA : List (String × List (Int × ℚ)) := [("A", [(2, 2), (1, 2)]), ("B", [(1, 6)])]

def segRowsB : List (String × List (Int × ℚ)) := [("C", [(2, 2), (1, 8)])]

theorem C9_segment_metrics_totals_witness :
    (1 < ([stepA, stepB] : List FunnelStepRequest).length
        ∧ (∀ j, j ≤ ([stepA, stepB] : List FunnelStepRequest).length + 1 →
            scTotal (accumulate_named_segments segRowsA 2) j
              = scTotal (accumulate_named_segments segRowsB 2) j))
      ∧ ((compute_segment_result segRowsA [stepA, stepB]).getD 1 dummyMetric).conversion_rate
          = ((compute_segment_result segRowsB [stepA, stepB]).getD 1 dummyMetric).conversion_rate := by
  have hA : accumulate_named_segments segRowsA 2
      = [(1, [("A", (4 : ℚ)), ("B", 6)]), (2, [("A", 2)])] := by
    simp [accumulate_named_segments, segRowsA, addRow, addCount, alSet, alGet, alFind,
      List.range']
    norm_num
  have hB : accumulate_named_segments segRowsB 2
      = [(1, [("C", (10 : ℚ))]), (2, [("C", 2)])] := by
    simp [accumulate_named_segments, segRowsB, addRow, addCount, alSet, alGet, alFind,
      List.range']
    norm_num
  have hj : ∀ j, j ≤ 2 + 1 →
      scTotal (accumulate_named_segments segRowsA 2) j
        = scTotal (accumulate_named_segments segRowsB 2) j := by
    intro j hjle
    rw [hA, hB]
    interval_cases j <;> norm_num [scTotal, sumValues, alGet, alFind]
  exact ⟨⟨by simp, hj⟩,
    ((C9_segment_metrics_totals segRowsA segRowsB [stepA, stepB] 1 (by simp) hj).1).1⟩

/-- A hospitality step whose selector is unresolvable. -/
def stepHosp : FunnelStepRequest := ⟨"hospitality", "Breakfast Upsell", none, []⟩

/-- C3 counterexample: a hospitality step whose selector is neither a known
event name nor parseable as an integer resolves to `funnel_step = 1` — not
to the direct literal `event_type` match the claim describes. -/
theorem C3_hospitality_fallback_cx :
    map_ui_to_sql stepHosp = "(funnel_step = 1)"
      ∧ map_ui_to_sql stepHosp ≠ "(event_type = 'Breakfast Upsell')" := by
  decide

/-- C3 (amended): malformed-selector fallback — a step whose selector is
not in the event-name mapping is never rejected: for a non-hospitality
category (generic, custom, or anything else) the base condition is the
permissive direct literal match `event_type = <selector>` (quote-escaped);
for the hospitality category with a selector that is also not in the
hospitality table and not parseable as an integer, the base condition is
the default `funnel_step = 1`; with no filters the full predicate is the
parenthesized base condition. -/
theorem C3_malformed_selector_fallback (step : FunnelStepRequest)
    (hm : alFind EVENT_MAPPING step.event_type = none) :
    (step.event_category ≠ "hospitality" →
        base_condition_of step = "event_type = '" ++ escapeQuotes step.event_type ++ "'")
      ∧ (step.event_category = "hospitality" →
          alFind hospitality_step_map step.event_type = none →
          pyInt? step.event_type = none →
          base_condition_of step = "funnel_step = 1")
      ∧ (step.filters = [] → map_ui_to_sql step = "(" ++ base_condition_of step ++ ")") := by
  refine ⟨?_, ?_, ?_⟩
  · intro hcat
    unfold base_condition_of
    rw [hm]
    by_cases hcust : step.event_category = "custom"
    · rw [if_pos hcust]
    · rw [if_neg hcust, if_neg hcat]
  · intro hcat hh hint
    unfold base_condition_of
    rw [hm]
    rw [if_neg (by rw [hcat]; decide), if_pos hcat, hh, hint]
  · intro hf
    unfold map_ui_to_sql
    rw [hf]
    simp

/-- A generic step whose selector is not in the event-name mapping. -/
def stepGen : FunnelStepRequest := ⟨"generic", "room_view", none, []⟩

theorem C3_malformed_selector_fallback_witness :
    (alFind EVENT_MAPPING stepGen.event_type = none
        ∧ stepGen.event_category ≠ "hospitality")
      ∧ base_condition_of stepGen
          = "event_type = '" ++ escapeQuotes stepGen.event_type ++ "'" :=
  ⟨⟨by decide, by decide⟩,
    (C3_malformed_selector_fallback stepGen (by decide)).1 (by decide)⟩

/-- C4 counterexample: an unknown mode with provided steps returns those
steps verbatim, rather than ignoring them and resolving from the preset
registry as the claim states. -/
theorem C4_unknown_mode_cx :
    resolve_funnel_steps "bogus" (some [stepA]) none = [stepA]
      ∧ resolve_funnel_steps "bogus" (some [stepA]) none
          ≠ resolve_funnel_steps "demo" none none := by
  decide

/-- C4 (amended): unknown-mode default — every mode other than "dynamic"
behaves exactly like the curated/demo mode on the same arguments: provided
steps are used verbatim when non-empty, and only otherwise are the steps
resolved from the preset registry (default preset when no id). -/
theorem C4_unknown_mode_is_demo (mode : String) (steps : Option (List FunnelStepRequest))
    (funnel_id : Option String) (h : mode ≠ "dynamic") :
    resolve_funnel_steps mode steps funnel_id
      = resolve_funnel_steps "demo" steps funnel_id := by
  unfold resolve_funnel_steps
  rw [if_neg h, if_neg (by decide : ¬("demo" : String) = "dynamic")]

theorem C4_unknown_mode_is_demo_witness :
    (("bogus" : String) ≠ "dynamic")
      ∧ resolve_funnel_steps "bogus" (some [stepB]) none
          = resolve_funnel_steps "demo" (some [stepB]) none :=
  ⟨by decide, C4_unknown_mode_is_demo "bogus" (some [stepB]) none (by decide)⟩

/-- C7: permissive operator default — a PropertyFilter whose operator is
not one of the operators recognized for its value's type class (and is not
one of the type-independent null checks) produces exactly the equals
condition for that value: boolean rendered as 0/1, numeric as a direct
comparison, string (or any other value) escaped and quoted.  The builder
is a total function: it returns this string and never raises. -/
theorem C7_unrecognized_op_equals (f : EventFilter)
    (h : f.operator ∉ recognizedOps f.value) :
    build_filter_condition f
      = build_filter_condition
          { property := f.property, operator := "equals", value := f.value } := by
  obtain ⟨prop, op, v⟩ := f
  cases v with
  | bool b =>
    simp only [recognizedOps, List.mem_cons, List.not_mem_nil, or_false, not_or] at h
    obtain ⟨h1, h2, h3, h4⟩ := h
    simp only [build_filter_condition, if_neg h1, if_neg h2, if_neg h3, if_neg h4]
    rfl
  | num n =>
    simp only [recognizedOps, List.mem_cons, List.not_mem_nil, or_false, not_or] at h
    obtain ⟨h1, h2, h3, h4, h5, h6, h7, h8⟩ := h
    simp only [build_filter_condition, if_neg h1, if_neg h2, if_neg h3, if_neg h4,
      if_neg h5, if_neg h6, if_neg h7, if_neg h8]
    rfl
  | str t =>
    simp only [recognizedOps, List.mem_cons, List.not_mem_nil, or_false, not_or] at h
    obtain ⟨h1, h2, h3, h4, h5, h6, h7, h8, h9, h10⟩ := h
    simp only [build_filter_condition, if_neg h1, if_neg h2, if_neg h3, if_neg h4,
      if_neg h5, if_neg h6, if_neg h7, if_neg h8, if_neg h9, if_neg h10]
    rfl
  | list vs =>
    simp only [recognizedOps, List.mem_cons, List.not_mem_nil, or_false, not_or] at h
    obtain ⟨h1, h2, h3, h4, h5, h6, h7, h8, h9, h10⟩ := h
    simp only [build_filter_condition, if_neg h1, if_neg h2, if_neg h3, if_neg h4,
      if_neg h5, if_neg h6, if_neg h7, if_neg h8, if_neg h9, if_neg h10]
    rfl

theorem C7_unrecognized_op_equals_witness :
    (("matches" : String) ∉ recognizedOps (FilterValue.str "mobile"))
      ∧ build_filter_condition ⟨"device_type", "matches", FilterValue.str "mobile"⟩
          = build_filter_condition ⟨"device_type", "equals", FilterValue.str "mobile"⟩ :=
  ⟨by decide,
    C7_unrecognized_op_equals ⟨"device_type", "matches", FilterValue.str "mobile"⟩ (by decide)⟩

theorem monoLoop_ne_nil (sc : List (Nat × ℚ)) :
    ∀ (l : List Nat) (prev : Option ℚ) (acc : List String),
      acc ≠ [] → monoLoop sc prev acc l ≠ [] := by
  intro l
  induction l with
  | nil =>
    intro prev acc hacc
    cases prev <;> simpa [monoLoop] using hacc
  | cons idx rest ih =>
    intro prev acc hacc
    cases prev with
    | none =>
      rw [monoLoop]
      exact ih _ acc hacc
    | some p =>
      rw [monoLoop]
      apply ih
      by_cases hlt : p < alGet sc idx 0
      · rw [if_pos hlt]
        simp
      · rw [if_neg hlt]
        exact hacc

theorem monoLoop_violation (sc : List (Nat × ℚ)) :
    ∀ (len a : Nat) (acc : List String), 2 ≤ a →
      (∃ i, a ≤ i ∧ i < a + len ∧ alGet sc (i - 1) 0 < alGet sc i 0) →
      monoLoop sc (some (alGet sc (a - 1) 0)) acc (List.range' a len) ≠ [] := by
  intro len
  induction len with
  | zero =>
    intro a acc _ hex
    obtain ⟨i, h1, h2, _⟩ := hex
    omega
  | succ len ih =>
    intro a acc ha hex
    rw [List.range'_succ, monoLoop]
    obtain ⟨i, h1, h2, hviol⟩ := hex
    by_cases hia : i = a
    · subst hia
      rw [if_pos hviol]
      have : some (alGet sc i 0) = some (alGet sc (i + 1 - 1) 0) := by
        rw [Nat.add_sub_cancel]
      rw [this]
      apply monoLoop_ne_nil
      simp
    · have : some (alGet sc a 0) = some (alGet sc (a + 1 - 1) 0) := by
        rw [Nat.add_sub_cancel]
      rw [this]
      apply ih (a + 1) _ (by omega)
      exact ⟨i, by omega, by omega, hviol⟩

/-- C8 counterexample: a step-reach map whose step-1 count (5) exceeds the
supplied population bound (3), evaluated with step_count 0 — the function
short-circuits, reporting is_valid with an empty anomaly list, so "step 1
exceeding a supplied population bound" does not always produce an
anomaly. -/
theorem C8_population_skip_cx :
    ((3 : Int) : ℚ) < 5
      ∧ validate_funnel_results [(1, 5)] (some 3) 0 = (true, []) := by
  constructor
  · norm_num
  · rfl

/-- C8 (amended): validation is advisory — `validate_funnel_results` is a
total function (never raises, never blocks the result) and (a) returns
is_valid true exactly when the anomaly list is empty; (b) any monotonicity
violation (`step_reach[i] > step_reach[i-1]` for some i in 2..step_count)
produces an anomaly message; (c) step 1 exceeding a supplied population
bound produces an anomaly message provided step_count ≥ 1 and the step-1
entry is present with a nonzero count — the code skips every check when
the map is empty or step_count is 0, and skips the population check when
`step_counts.get(1)` is falsy. -/
theorem C8_validation_advisory (sc : List (Nat × ℚ)) (ts : Option Int) (n : Nat) :
    ((validate_funnel_results sc ts n).1 = true
        ↔ (validate_funnel_results sc ts n).2 = [])
      ∧ (∀ i, 2 ≤ i → i ≤ n → alGet sc (i - 1) 0 < alGet sc i 0 →
          (validate_funnel_results sc ts n).2 ≠ [])
      ∧ (∀ t v, ts = some t → alFind sc 1 = some v → v ≠ 0 → (t : ℚ) < v → 1 ≤ n →
          (validate_funnel_results sc ts n).2 ≠ []) := by
  refine ⟨?_, ?_, ?_⟩
  · unfold validate_funnel_results
    by_cases he : sc = [] ∨ n = 0
    · rw [if_pos he]
      simp
    · rw [if_neg he]
      simp [List.isEmpty_iff]
  · intro i h2 hn hviol
    have hsc : sc ≠ [] := by
      intro hnil
      rw [hnil] at hviol
      exact absurd hviol (lt_irrefl _)
    have hn0 : n ≠ 0 := by omega
    unfold validate_funnel_results
    rw [if_neg (by simp [hsc, hn0])]
    have hanom : monoLoop sc none [] (List.range' 1 n) ≠ [] := by
      have hn1 : n = (n - 1) + 1 := by omega
      rw [hn1, List.range'_succ, monoLoop]
      have : some (alGet sc 1 0) = some (alGet sc (2 - 1) 0) := rfl
      rw [this]
      apply monoLoop_violation sc (n - 1) 2 [] (le_refl 2)
      exact ⟨i, h2, by omega, hviol⟩
    cases hts : ts with
    | none => simpa using hanom
    | some t =>
      cases hf : alFind sc 1 with
      | none => simpa using hanom
      | some v =>
        simp only []
        by_cases hc : v ≠ 0 ∧ (t : ℚ) < v
        · rw [if_pos hc]
          simp
        · rw [if_neg hc]
          simpa using hanom
  · intro t v hts hf hv0 htv hn1
    have hsc : sc ≠ [] := by
      intro hnil
      rw [hnil] at hf
      cases hf
    unfold validate_funnel_results
    rw [if_neg (by simp [hsc]; omega)]
    rw [hts, hf]
    simp only []
    rw [if_pos (⟨hv0, htv⟩ : v ≠ 0 ∧ (t : ℚ) < v)]
    simp

/-- A step-reach map with a monotonicity violation at step 2. -/
def badCounts : List (Nat × ℚ) := [(1, 3), (2, 5)]

theorem C8_validation_advisory_witness :
    (2 ≤ 2 ∧ 2 ≤ 2 ∧ alGet badCounts 1 0 < alGet badCounts 2 0)
      ∧ (validate_funnel_results badCounts none 2).2 ≠ [] :=
  ⟨⟨le_refl 2, le_refl 2, by norm_num [badCounts, alGet, alFind]⟩,
    (C8_validation_advisory badCounts none 2).2.1 2 (le_refl 2) (le_refl 2)
      (by norm_num [badCounts, alGet, alFind])⟩

end Funnel
